import Mathlib

/-!
Verification of the evolium genetic-algorithm core (`src/evolium.py`).

The Python code is shallowly embedded: Python floats become `ℚ`, fallible
operations (`random.sample` with a bad size, `sorted(...)[0]` on an empty
list, the explicit `raise ValueError`) become `Except String`.  Randomness
is made explicit: every call that consumes the process-wide random source
takes the drawn values (rationals in `[0,1)` for `random.random()`, index
streams for `random.sample`) as arguments.
-/

set_option autoImplicit false

namespace Evolium

/-- Python `Formula = namedtuple("Formula", "m c fitness")`; `fitness` is `None`
until scored, modelled as `Option ℚ`. -/
structure Formula where
  m : ℚ
  c : ℚ
  fitness : Option ℚ
  deriving DecidableEq

/-- Python `DataPoint = namedtuple("DataPoint", "x y")`. -/
structure DataPoint where
  x : ℚ
  y : ℚ
  deriving DecidableEq

/-- Python `MCRange = namedtuple("MCRange", "minM maxM minC maxC")`. -/
structure MCRange where
  minM : ℚ
  maxM : ℚ
  minC : ℚ
  maxC : ℚ
  deriving DecidableEq

/-- The `HyperParams` bundle (the CLI fills it; §3 of the design).  `cycles`,
`popSize` and `dps` are nonnegative integers, the rest Python floats. -/
structure HyperParams where
  cycles : ℕ
  mcrange : MCRange
  popSize : ℕ
  mutProb : ℚ
  mutVal : ℚ
  dps : ℕ
  tournamentSize : ℚ
  goldenSize : ℚ
  immigrationSize : ℚ
  deriving DecidableEq

/-- Python `round(q, 0)` as an integer: round half to even (banker
rounding), as CPython `round` does on floats. -/
def pyRound0 (q : ℚ) : ℤ :=
  let f := ⌊q⌋
  let r := q - f
  if r < 1/2 then f
  else if 1/2 < r then f + 1
  else if f % 2 = 0 then f else f + 1

/-- Python `round(q, n)` for `n ≥ 0` decimal places, as a rational. -/
def pyRoundD (q : ℚ) (n : ℕ) : ℚ :=
  (pyRound0 (q * 10 ^ n) : ℚ) / 10 ^ n

/-- Python `int(q)`: truncation toward zero. -/
def pyInt (q : ℚ) : ℤ :=
  if 0 ≤ q then ⌊q⌋ else ⌈q⌉

/-- A value that `random.random()` can return lies in `[0,1)`. -/
def unitDraw (q : ℚ) : Prop := 0 ≤ q ∧ q < 1

/-- All three draws a single `__mutate` loop iteration may consume lie in
`[0,1)`. -/
def unitDraw3 (r : ℚ × ℚ × ℚ) : Prop :=
  unitDraw r.1 ∧ unitDraw r.2.1 ∧ unitDraw r.2.2

instance (q : ℚ) : Decidable (unitDraw q) := by
  unfold unitDraw; infer_instance

instance (r : ℚ × ℚ × ℚ) : Decidable (unitDraw3 r) := by
  unfold unitDraw3; infer_instance

theorem pyRound0_of_lt_half {q : ℚ} (h0 : 0 ≤ q) (h1 : q < 1/2) :
    pyRound0 q = 0 := by
  have hf : ⌊q⌋ = 0 := by
    rw [Int.floor_eq_zero_iff]
    exact ⟨h0, by linarith⟩
  simp only [pyRound0, hf]
  have h2 : q - ((0 : ℤ) : ℚ) < 1/2 := by push_cast; linarith
  rw [if_pos h2]

theorem pyRound0_of_neg_half {q : ℚ} (h0 : -(1/2) ≤ q) (h1 : q < 0) :
    pyRound0 q = 0 := by
  have hf : ⌊q⌋ = -1 := by
    rw [Int.floor_eq_iff]
    push_cast
    constructor <;> linarith
  simp only [pyRound0, hf]
  have h2 : ¬ (q - ((-1 : ℤ) : ℚ) < 1/2) := by push_cast; linarith
  rw [if_neg h2]
  by_cases h3 : (1:ℚ)/2 < q - ((-1 : ℤ) : ℚ)
  · rw [if_pos h3]
    decide
  · rw [if_neg h3]
    have h4 : ¬ ((-1 : ℤ) % 2 = 0) := by decide
    rw [if_neg h4]
    decide

/-- The mutation direction `round(random.random() - 0.5, 0)` is always `0`:
the centred draw lies in `[-1/2, 1/2)`, which rounds (half-to-even) to zero. -/
theorem direction_eq_zero {r : ℚ} (h : unitDraw r) : pyRound0 (r - 1/2) = 0 := by
  obtain ⟨h0, h1⟩ := h
  rcases lt_or_le r (1/2) with h | h
  · exact pyRound0_of_neg_half (by linarith) (by linarith)
  · exact pyRound0_of_lt_half (by linarith) (by linarith)

theorem pyRound0_cast (n : ℤ) : pyRound0 ((n : ℤ) : ℚ) = n := by
  unfold pyRound0
  rw [Int.floor_intCast]
  norm_num

theorem pyRound0_two_fifths : pyRound0 ((2 : ℚ)/5) = 0 :=
  pyRound0_of_lt_half (by norm_num) (by norm_num)

/-- Python `__createPopulation(mcrange, dps, popSize)`: `popSize` candidates, each
with `m = round(random.uniform(minM, maxM), dps)` and likewise for `c`,
fitness `None`.  In CPython, `random.uniform(a, b)` is `a + (b-a)*random()`;
the draws are the explicit stream `draws`. -/
def createPopulation (mcrange : MCRange) (dps : ℕ) (popSize : ℕ)
    (draws : ℕ → ℚ × ℚ) : List Formula :=
  (List.range popSize).map fun i =>
    ⟨pyRoundD (mcrange.minM + (mcrange.maxM - mcrange.minM) * (draws i).1) dps,
     pyRoundD (mcrange.minC + (mcrange.maxC - mcrange.minC) * (draws i).2) dps,
     none⟩

/-- Python `__score(candidate, data)`: sum of `abs(round(y - (m*x + c), hyperParams.dps))`
over the data.  NOTE: the Python function reads the *module-global*
`hyperParams.dps` (it has no hyper-parameter argument), so the precision is
the explicit `globalDps` parameter here, distinct from any bundle passed to
the callers. -/
def score (candidate : Formula) (data : List DataPoint) (globalDps : ℕ) : ℚ :=
  (data.map fun p => |pyRoundD (p.y - (candidate.m * p.x + candidate.c)) globalDps|).sum

/-- Python `candidate.fitness or __score(...)`: `None` and `0.0` are falsy,
so an unset or zero fitness is replaced by the freshly computed score. -/
def fitnessOr (f : Option ℚ) (s : ℚ) : ℚ :=
  match f with
  | none => s
  | some v => if v = 0 then s else v

/-- Python `__scorePopulation(population, data, hyperParams)`.  The `hyperParams`
argument is accepted but never forwarded to `__score`, which instead reads
the module-global precision `globalDps` — faithful to the source. -/
def scorePopulation (population : List Formula) (data : List DataPoint)
    (hyperParams : HyperParams) (globalDps : ℕ) : List Formula :=
  population.map fun candidate =>
    ⟨candidate.m, candidate.c,
     some (fitnessOr candidate.fitness (score candidate data globalDps))⟩

/-- Python `__best(population) = sorted(population, key=lambda ind: ind.fitness)[0]`:
the first element of minimal fitness (`sorted` is stable), an `IndexError`
on an empty list.  All call sites pass fully scored populations, so the
`Option` key is read with default `0`. -/
def best (population : List Formula) : Except String Formula :=
  match population with
  | [] => Except.error "IndexError: list index out of range"
  | x :: xs =>
      Except.ok (xs.foldl (fun acc y =>
        if y.fitness.getD 0 < acc.fitness.getD 0 then y else acc) x)

/-- One pick of `random.sample` without replacement: take the element at a
stream-chosen position and drop it from the remaining list. -/
def sampleAux (idx : ℕ → ℕ) : ℕ → List Formula → ℕ → List Formula
  | 0, _, _ => []
  | n + 1, l, i =>
      l.getD (idx i % l.length) ⟨0, 0, none⟩ ::
        sampleAux idx n (l.eraseIdx (idx i % l.length)) (i + 1)

/-- Python `random.sample(l, k)`: `k` distinct positions without replacement;
raises `ValueError` when `k` is negative or exceeds the population size. -/
def pythonSample (l : List Formula) (k : ℤ) (idx : ℕ → ℕ) :
    Except String (List Formula) :=
  if k < 0 ∨ (l.length : ℤ) < k then
    Except.error "ValueError: Sample larger than population or is negative"
  else
    Except.ok (sampleAux idx k.toNat l 0)

/-- The tournaments of `__selectPopulation`: for each of `n` tournaments
(at tournament index `t`), sample `k` members and keep the best.  The first
exception aborts the comprehension, as in Python. -/
def runTournaments (population : List Formula) (k : ℤ) (idx : ℕ → ℕ → ℕ) :
    ℕ → ℕ → Except String (List Formula)
  | _, 0 => Except.ok []
  | t, n + 1 =>
      match pythonSample population k (idx t) with
      | Except.error e => Except.error e
      | Except.ok samp =>
          match best samp with
          | Except.error e => Except.error e
          | Except.ok winner =>
              match runTournaments population k idx (t + 1) n with
              | Except.error e => Except.error e
              | Except.ok rest => Except.ok (winner :: rest)

/-- Python `__selectPopulation(population, hyperParams)`:
`[__best(random.sample(population, int(round(popSize*tournamentSize, 0))))
  for _ in range(int(round(popSize*goldenSize, 0)))]`.
No clamping of the tournament sample size. -/
def selectPopulation (population : List Formula) (hyperParams : HyperParams)
    (idx : ℕ → ℕ → ℕ) : Except String (List Formula) :=
  runTournaments population
    (pyRound0 ((hyperParams.popSize : ℚ) * hyperParams.tournamentSize)) idx 0
    (pyRound0 ((hyperParams.popSize : ℚ) * hyperParams.goldenSize)).toNat

/-- Python `__potentialChildren(population)`: the set of `(m, c)` pairs from
`itertools.product(ms, cs)` together with each pair swapped, deduplicated,
each becoming a fitness-unset `Formula`. -/
def potentialChildren (population : List Formula) : List Formula :=
  let ms := population.map (·.m)
  let cs := population.map (·.c)
  let prod := ms.flatMap fun m => cs.map fun c => (m, c)
  ((prod.map fun p => (p.2, p.1)) ++ prod).dedup.map fun p => ⟨p.1, p.2, none⟩

/-- One iteration of the loop in `__mutate`, with its (up to) three draws of
`random.random()` given explicitly: mutate with probability `mutProb`, the
direction is `round(random.random()-0.5, 0)`, and a fair coin picks `m` or
`c`. -/
def mutateChild (child : Formula) (hyperParams : HyperParams)
    (r : ℚ × ℚ × ℚ) : Formula :=
  if r.1 < hyperParams.mutProb then
    let direction : ℚ := (pyRound0 (r.2.1 - 1/2) : ℚ)
    if r.2.2 < 1/2 then
      ⟨child.m + hyperParams.mutVal * direction, child.c, none⟩
    else
      ⟨child.m, child.c + hyperParams.mutVal * direction, none⟩
  else
    ⟨child.m, child.c, none⟩

/-- The `for child in children` loop of `__mutate`, consuming one draw
triple per child. -/
def mutateAux (hyperParams : HyperParams) (draws : ℕ → ℚ × ℚ × ℚ) :
    List Formula → ℕ → List Formula
  | [], _ => []
  | child :: rest, i =>
      mutateChild child hyperParams (draws i) ::
        mutateAux hyperParams draws rest (i + 1)

/-- Python `__mutate(children, hyperParams)`: the mutated children, collected into
a Python `set` (modelled by `dedup`; membership is unchanged). -/
def mutate (children : List Formula) (hyperParams : HyperParams)
    (draws : ℕ → ℚ × ℚ × ℚ) : List Formula :=
  (mutateAux hyperParams draws children 0).dedup

/-- The sample-size argument of `random.sample` in `__breedPopulation`:
`int(min(len(pool), (popSize*(1-immigrationSize)) - len(population)))`. -/
def childTarget (population : List Formula) (hyperParams : HyperParams) : ℤ :=
  pyInt (min ((potentialChildren population).length : ℚ)
    ((hyperParams.popSize : ℚ) * (1 - hyperParams.immigrationSize) - population.length))

/-- Python `__breedPopulation(population, hyperParams)`.  Faithful to the source:
`mutatedChildren` is computed and then *unused* — the pre-mutation
`children` are appended; the assembled list is the elite followed by the
children followed by fresh immigrants, and a size mismatch raises. -/
def breedPopulation (population : List Formula) (hyperParams : HyperParams)
    (sampleIdx : ℕ → ℕ) (mutDraws : ℕ → ℚ × ℚ × ℚ) (immDraws : ℕ → ℚ × ℚ) :
    Except String (List Formula) :=
  let pool := potentialChildren population
  match pythonSample pool (childTarget population hyperParams) sampleIdx with
  | Except.error e => Except.error e
  | Except.ok children =>
      let mutatedChildren := mutate children hyperParams mutDraws
      let immigrants : ℤ := (hyperParams.popSize : ℤ) - (children.length + population.length)
      let newPopulation := population ++ children ++
        createPopulation hyperParams.mcrange hyperParams.dps immigrants.toNat immDraws
      if newPopulation.length ≠ hyperParams.popSize then
        Except.error "ValueError: Population size mismatch"
      else
        Except.ok newPopulation

/-- The explicit random streams consumed by one run of `evolve`: draws for
the initial population, and per generation the tournament index streams,
the breeding sample index stream, the mutation draw triples and the
immigrant draws. -/
structure Rand where
  initDraws : ℕ → ℚ × ℚ
  tournIdx : ℕ → ℕ → ℕ → ℕ
  sampleIdx : ℕ → ℕ → ℕ
  mutDraws : ℕ → ℕ → ℚ × ℚ × ℚ
  immDraws : ℕ → ℕ → ℚ × ℚ

/-- The `for i in range(cycles)` loop of `evolve`, with `fuel` the number of
remaining iterations (`fuel + i = cycles` at every call from `evolve`).
After the loop: `return (__best(basePopulation), cycles)`. -/
def evolveLoop (data : List DataPoint) (hyperParams : HyperParams) (R : Rand)
    (globalDps : ℕ) : ℕ → ℕ → List Formula → Except String (Formula × ℕ)
  | 0, _, basePopulation =>
      match best basePopulation with
      | Except.error e => Except.error e
      | Except.ok b => Except.ok (b, hyperParams.cycles)
  | fuel + 1, i, basePopulation =>
      let fitPopulation := scorePopulation basePopulation data hyperParams globalDps
      match best fitPopulation with
      | Except.error e => Except.error e
      | Except.ok b =>
          if b.fitness = some 0 then
            Except.ok (b, i + 1)
          else
            match selectPopulation fitPopulation hyperParams (R.tournIdx i) with
            | Except.error e => Except.error e
            | Except.ok bestPopulation =>
                if i + 1 < hyperParams.cycles then
                  match breedPopulation bestPopulation hyperParams
                      (R.sampleIdx i) (R.mutDraws i) (R.immDraws i) with
                  | Except.error e => Except.error e
                  | Except.ok newPopulation =>
                      evolveLoop data hyperParams R globalDps fuel (i + 1) newPopulation
                else
                  evolveLoop data hyperParams R globalDps fuel (i + 1) bestPopulation

/-- Python `evolve(data, hyperParams)`: build the initial population, then run the
generational loop.  `globalDps` is the module-global precision read by
`__score`. -/
def evolve (data : List DataPoint) (hyperParams : HyperParams) (R : Rand)
    (globalDps : ℕ) : Except String (Formula × ℕ) :=
  evolveLoop data hyperParams R globalDps hyperParams.cycles 0
    (createPopulation hyperParams.mcrange hyperParams.dps hyperParams.popSize R.initDraws)

/-- Modelled from the spec (§4.2), for comparison with `score`: the scoring
contract `score(candidate, data, precision)` computed with the *supplied*
precision. -/
def scoreSpec (candidate : Formula) (data : List DataPoint) (precision : ℕ) : ℚ :=
  (data.map fun p => |pyRoundD (p.y - (candidate.m * p.x + candidate.c)) precision|).sum

/-- The base population at the start of generation `i` of a run, as the
loop in `evolve` produces it (ignoring the early convergence exit, which
stops consuming generations but does not change them): generation 0 is the
initial random population; generation `i+1` is bred from the elite selected
out of the scored generation `i`, except that the last allowed generation
is the elite itself. -/
def basePopAt (data : List DataPoint) (hyperParams : HyperParams) (R : Rand)
    (globalDps : ℕ) : ℕ → Except String (List Formula)
  | 0 => Except.ok (createPopulation hyperParams.mcrange hyperParams.dps
      hyperParams.popSize R.initDraws)
  | i + 1 =>
      match basePopAt data hyperParams R globalDps i with
      | Except.error e => Except.error e
      | Except.ok gen =>
          match selectPopulation (scorePopulation gen data hyperParams globalDps)
              hyperParams (R.tournIdx i) with
          | Except.error e => Except.error e
          | Except.ok elite =>
              if i + 1 < hyperParams.cycles then
                breedPopulation elite hyperParams (R.sampleIdx i) (R.mutDraws i)
                  (R.immDraws i)
              else
                Except.ok elite

/-! ### Concrete instances used by witnesses and counterexamples -/

/-- The CLI-default hyper-parameters (`--mutProb 0.01 --mutVal 0.05 --dps 1
--tournamentSize 0.08 --goldenSize 0.4 --immigrationSize 0.2`), small cycle
and population counts. -/
def hpDefault : HyperParams :=
  ⟨10, ⟨0, 100, 0, 100⟩, 10, 1/100, 1/20, 1, 2/25, 2/5, 1/5⟩

/-- Hyper-parameters with `mutProb = 1.0` and `mutVal = 5`, as in the
mutation-magnitude test property of the spec. -/
def hpMutOne : HyperParams :=
  ⟨10, ⟨0, 100, 0, 100⟩, 10, 1, 5, 1, 2/25, 2/5, 1/5⟩

/-- A one-member elite set used in concrete breeding runs. -/
def eliteOne : List Formula := [⟨1, 2, none⟩]

/-- Hyper-parameters under which breeding `eliteOne` reaches `popSize`
exactly: `popSize = 3`, `immigrationSize = 1/3`. -/
def hpBreed : HyperParams :=
  ⟨5, ⟨0, 10, 0, 10⟩, 3, 1/100, 1/20, 0, 1/2, 1/2, 1/3⟩

/-- The two-member elite set `{(1,2),(3,4)}`. -/
def eliteTwo : List Formula := [⟨1, 2, none⟩, ⟨3, 4, none⟩]

/-- Hyper-parameters whose non-immigrant quota is below the elite size:
`popSize = 2`, `immigrationSize = 1/2`, so the child target is
`int(min(8, 2·(1/2) − 2)) = −1`. -/
def hpImmHalf : HyperParams :=
  ⟨1, ⟨0, 2, 0, 2⟩, 2, 1/100, 1/20, 0, 1/2, 1/2, 1/2⟩

/-- A two-candidate scored population used in concrete selection runs. -/
def popScored : List Formula := [⟨0, 0, some 1⟩, ⟨1, 1, some 2⟩]

/-- Hyper-parameters whose tournament sample size rounds to zero:
`popSize = 2`, `tournamentSize = 1/5`, so `round(2·(1/5)) = 0`. -/
def hpTournZero : HyperParams :=
  ⟨1, ⟨0, 2, 0, 2⟩, 2, 1/100, 1/20, 0, 1/5, 1/2, 1/5⟩

/-- Hyper-parameters for the concrete one-cycle `evolve` run: `cycles = 1`,
`popSize = 2`, `dps = 0`, `tournamentSize = goldenSize = 1/2`. -/
def hpEx : HyperParams :=
  ⟨1, ⟨0, 2, 0, 2⟩, 2, 1/100, 1/20, 0, 1/2, 1/2, 1/5⟩

/-- Streams for the concrete `evolve` run: initial draws produce the
candidates `(1,0)` and `(0,0)`, and every tournament picks index 1. -/
def REx : Rand :=
  ⟨fun i => if i = 0 then (1/2, 0) else (0, 0),
   fun _ _ _ => 1, fun _ _ => 0, fun _ _ => (0, 0, 0), fun _ _ => (0, 0)⟩

/-- The dataset `[(x=1, y=3)]` of the concrete `evolve` run. -/
def dataEx : List DataPoint := [⟨1, 3⟩]

/-- Hyper-parameters for the empty-dataset run: `popSize = 1`, `cycles = 1`. -/
def hpEmpty : HyperParams :=
  ⟨1, ⟨0, 2, 0, 2⟩, 1, 1/100, 1/20, 0, 1/2, 1/2, 1/5⟩

/-- Hyper-parameters whose bundle carries precision `dps = 1`, used against
a module-global precision of `0`. -/
def hpPrec : HyperParams :=
  ⟨1, ⟨0, 2, 0, 2⟩, 1, 1/100, 1/20, 1, 1/2, 1/2, 1/5⟩

/-! ### Helper lemmas -/

/-- Zeta-free unfolding of `breedPopulation` (the dead `mutatedChildren`
binding dropped, the `let`s inlined). -/
theorem breedPopulation_eq (population : List Formula)
    (hyperParams : HyperParams) (sampleIdx : ℕ → ℕ)
    (mutDraws : ℕ → ℚ × ℚ × ℚ) (immDraws : ℕ → ℚ × ℚ) :
    breedPopulation population hyperParams sampleIdx mutDraws immDraws =
      match pythonSample (potentialChildren population)
          (childTarget population hyperParams) sampleIdx with
      | Except.error e => Except.error e
      | Except.ok children =>
          if (population ++ children ++
              createPopulation hyperParams.mcrange hyperParams.dps
                ((hyperParams.popSize : ℤ) -
                  (children.length + population.length)).toNat immDraws).length ≠
              hyperParams.popSize then
            Except.error "ValueError: Population size mismatch"
          else
            Except.ok (population ++ children ++
              createPopulation hyperParams.mcrange hyperParams.dps
                ((hyperParams.popSize : ℤ) -
                  (children.length + population.length)).toNat immDraws) := rfl

theorem mutateChild_eq {r : ℚ × ℚ × ℚ} (h : unitDraw3 r)
    (child : Formula) (hyperParams : HyperParams) :
    mutateChild child hyperParams r = ⟨child.m, child.c, none⟩ := by
  obtain ⟨_, h2, _⟩ := h
  unfold mutateChild
  have hdir : pyRound0 (r.2.1 - 1/2) = 0 := direction_eq_zero h2
  by_cases h1 : r.1 < hyperParams.mutProb
  · rw [if_pos h1]
    by_cases h3 : r.2.2 < 1/2
    · rw [if_pos h3, hdir]
      simp
    · rw [if_neg h3, hdir]
      simp
  · rw [if_neg h1]

theorem mutateAux_eq_map {draws : ℕ → ℚ × ℚ × ℚ}
    (hd : ∀ n, unitDraw3 (draws n)) (hyperParams : HyperParams) :
    ∀ (l : List Formula) (i : ℕ),
      mutateAux hyperParams draws l i = l.map fun c => ⟨c.m, c.c, none⟩ := by
  intro l
  induction l with
  | nil => intro i; rfl
  | cons child rest ih =>
      intro i
      simp [mutateAux, mutateChild_eq (hd i), ih]

theorem mem_mutate_of_unscored {draws : ℕ → ℚ × ℚ × ℚ}
    (hd : ∀ n, unitDraw3 (draws n)) (hyperParams : HyperParams)
    {l : List Formula} (hl : ∀ c ∈ l, c.fitness = none) (f : Formula) :
    f ∈ mutate l hyperParams draws ↔ f ∈ l := by
  unfold mutate
  rw [List.mem_dedup, mutateAux_eq_map hd]
  constructor
  · rintro h
    rw [List.mem_map] at h
    obtain ⟨c, hc, rfl⟩ := h
    cases c with
    | mk m c fit =>
        have hfit : fit = none := hl _ hc
        rw [hfit] at hc
        exact hc
  · intro h
    rw [List.mem_map]
    refine ⟨f, h, ?_⟩
    cases f with
    | mk m c fit =>
        have hfit : fit = none := hl _ h
        rw [hfit]

theorem mem_prodList (ms cs : List ℚ) (p : ℚ × ℚ) :
    p ∈ (ms.flatMap fun m => cs.map fun c => (m, c)) ↔ p.1 ∈ ms ∧ p.2 ∈ cs := by
  cases p with
  | mk a b =>
      simp only [List.mem_flatMap, List.mem_map, Prod.mk.injEq]
      constructor
      · rintro ⟨m, hm, c, hc, rfl, rfl⟩
        exact ⟨hm, hc⟩
      · rintro ⟨ha, hb⟩
        exact ⟨a, ha, b, hb, rfl, rfl⟩

theorem potentialChildren_fitness {population : List Formula} {f : Formula}
    (h : f ∈ potentialChildren population) : f.fitness = none := by
  unfold potentialChildren at h
  rw [List.mem_map] at h
  obtain ⟨p, _, rfl⟩ := h
  rfl

theorem sampleAux_length (idx : ℕ → ℕ) :
    ∀ (n : ℕ) (l : List Formula) (i : ℕ), (sampleAux idx n l i).length = n := by
  intro n
  induction n with
  | zero => intro l i; rfl
  | succ m ih => intro l i; simp [sampleAux, ih]

theorem sampleAux_subset (idx : ℕ → ℕ) :
    ∀ (n : ℕ) (l : List Formula) (i : ℕ), n ≤ l.length →
      ∀ x ∈ sampleAux idx n l i, x ∈ l := by
  intro n
  induction n with
  | zero => intro l i _ x hx; simp [sampleAux] at hx
  | succ m ih =>
      intro l i hn x hx
      have hpos : 0 < l.length := lt_of_lt_of_le (Nat.succ_pos m) hn
      have hj : idx i % l.length < l.length := Nat.mod_lt _ hpos
      simp only [sampleAux, List.mem_cons] at hx
      rcases hx with hx | hx
      · rw [hx, List.getD_eq_getElem l _ hj]
        exact List.getElem_mem hj
      · have hlen : m ≤ (l.eraseIdx (idx i % l.length)).length := by
          rw [List.length_eraseIdx_of_lt hj]
          omega
        exact (List.eraseIdx_sublist l (idx i % l.length)).subset (ih _ _ hlen x hx)

theorem pythonSample_ok_length {l : List Formula} {k : ℤ} {idx : ℕ → ℕ}
    {s : List Formula} (h : pythonSample l k idx = Except.ok s) :
    s.length = k.toNat := by
  unfold pythonSample at h
  split at h
  · exact absurd h (by simp)
  · injection h with h
    rw [← h, sampleAux_length]

theorem pythonSample_ok_subset {l : List Formula} {k : ℤ} {idx : ℕ → ℕ}
    {s : List Formula} (h : pythonSample l k idx = Except.ok s) :
    ∀ x ∈ s, x ∈ l := by
  unfold pythonSample at h
  split at h
  · exact absurd h (by simp)
  · next hguard =>
      push_neg at hguard
      injection h with h
      have hk : k.toNat ≤ l.length := by omega
      rw [← h]
      exact sampleAux_subset idx _ l 0 hk

theorem createPopulation_length (mcrange : MCRange) (dps popSize : ℕ)
    (draws : ℕ → ℚ × ℚ) :
    (createPopulation mcrange dps popSize draws).length = popSize := by
  simp [createPopulation]

theorem createPopulation_fitness {mcrange : MCRange} {dps popSize : ℕ}
    {draws : ℕ → ℚ × ℚ} {f : Formula}
    (h : f ∈ createPopulation mcrange dps popSize draws) : f.fitness = none := by
  unfold createPopulation at h
  rw [List.mem_map] at h
  obtain ⟨i, _, rfl⟩ := h
  rfl

theorem foldl_choice_mem (g : Formula → Formula → Formula)
    (hg : ∀ a b, g a b = a ∨ g a b = b) :
    ∀ (xs : List Formula) (x : Formula), xs.foldl g x ∈ x :: xs := by
  intro xs
  induction xs with
  | nil => intro x; simp
  | cons y ys ih =>
      intro x
      rw [List.foldl_cons]
      rcases List.mem_cons.mp (ih (g x y)) with h2 | h2
      · rcases hg x y with h | h
        · rw [h2, h]; exact List.mem_cons_self _ _
        · rw [h2, h]; exact List.mem_cons_of_mem _ (List.mem_cons_self _ _)
      · exact List.mem_cons_of_mem _ (List.mem_cons_of_mem _ h2)

theorem best_mem {l : List Formula} {b : Formula}
    (h : best l = Except.ok b) : b ∈ l := by
  cases l with
  | nil => exact absurd h (by simp [best])
  | cons x xs =>
      unfold best at h
      injection h with h
      rw [← h]
      exact foldl_choice_mem _
        (fun a c => by
          by_cases hc : c.fitness.getD 0 < a.fitness.getD 0 <;> simp [hc]) xs x

theorem foldl_choice_min :
    ∀ (xs : List Formula) (x : Formula), ∀ y ∈ x :: xs,
      (xs.foldl (fun acc w =>
          if w.fitness.getD 0 < acc.fitness.getD 0 then w else acc)
        x).fitness.getD 0 ≤ y.fitness.getD 0 := by
  intro xs
  induction xs with
  | nil =>
      intro x y hy
      rw [List.mem_singleton] at hy
      subst hy
      exact le_refl _
  | cons w ws ih =>
      intro x y hy
      rw [List.foldl_cons]
      have hpz : (if w.fitness.getD 0 < x.fitness.getD 0 then w
          else x).fitness.getD 0 ≤ x.fitness.getD 0 := by
        by_cases hc : w.fitness.getD 0 < x.fitness.getD 0
        · rw [if_pos hc]; exact le_of_lt hc
        · rw [if_neg hc]
      have hpw : (if w.fitness.getD 0 < x.fitness.getD 0 then w
          else x).fitness.getD 0 ≤ w.fitness.getD 0 := by
        by_cases hc : w.fitness.getD 0 < x.fitness.getD 0
        · rw [if_pos hc]
        · rw [if_neg hc]; exact le_of_not_lt hc
      have hhead := ih (if w.fitness.getD 0 < x.fitness.getD 0 then w else x) _
        (List.mem_cons_self _ _)
      rcases List.mem_cons.mp hy with rfl | hy2
      · exact le_trans hhead hpz
      · rcases List.mem_cons.mp hy2 with rfl | hy3
        · exact le_trans hhead hpw
        · exact ih _ y (List.mem_cons_of_mem _ hy3)

theorem best_min {population : List Formula} {x : Formula}
    (h : best population = Except.ok x) :
    x ∈ population ∧
      ∀ y ∈ population, x.fitness.getD 0 ≤ y.fitness.getD 0 := by
  cases population with
  | nil => exact absurd h (by simp [best])
  | cons z zs =>
      unfold best at h
      injection h with h
      subst h
      constructor
      · exact foldl_choice_mem _
          (fun a c => by
            by_cases hc : c.fitness.getD 0 < a.fitness.getD 0 <;> simp [hc]) zs z
      · exact foldl_choice_min zs z

theorem scorePopulation_empty_data {population : List Formula}
    (hpop : ∀ c ∈ population, c.fitness = none) (hyperParams : HyperParams)
    (globalDps : ℕ) :
    ∀ f ∈ scorePopulation population [] hyperParams globalDps,
      f.fitness = some 0 := by
  intro f hf
  unfold scorePopulation at hf
  rw [List.mem_map] at hf
  obtain ⟨c, hc, rfl⟩ := hf
  simp [hpop c hc, fitnessOr, score]

theorem scorePopulation_length (population : List Formula)
    (data : List DataPoint) (hyperParams : HyperParams) (globalDps : ℕ) :
    (scorePopulation population data hyperParams globalDps).length =
      population.length := by
  simp [scorePopulation]

/-! ### C2: the candidate-child pool of the breeder -/

/-- C2 (counterexample): for the elite set `{(1,2),(3,4)}` the pool also
contains the swapped pair `(2,1)`, which is not among the 4 cross-product
pairs — the claim "exactly those 4 pairs and no other (m,c) pairs" is
false. -/
theorem pool_counterexample :
    (⟨2, 1, none⟩ : Formula) ∈ potentialChildren [⟨1, 2, none⟩, ⟨3, 4, none⟩] ∧
      ((2 : ℚ), (1 : ℚ)) ∉ ([(1, 2), (1, 4), (3, 2), (3, 4)] : List (ℚ × ℚ)) := by
  constructor
  · decide
  · decide

/-- C2 (amended): the pool is exactly the deduplicated union of the cross
product of elite m-values with elite c-values *and* the swapped pairs
(an elite c-value as m paired with an elite m-value as c), each pair a
fitness-unset child. -/
theorem mem_potentialChildren_iff (population : List Formula) (f : Formula) :
    f ∈ potentialChildren population ↔
      f.fitness = none ∧
        ((f.m ∈ population.map (·.m) ∧ f.c ∈ population.map (·.c)) ∨
         (f.m ∈ population.map (·.c) ∧ f.c ∈ population.map (·.m))) := by
  constructor
  · intro hmem
    simp only [potentialChildren, List.mem_map, List.mem_dedup,
      List.mem_append] at hmem
    obtain ⟨⟨a, b⟩, hab, rfl⟩ := hmem
    refine ⟨rfl, ?_⟩
    rcases hab with h | h
    · obtain ⟨⟨m, c⟩, hp, heq⟩ := h
      rw [mem_prodList] at hp
      injection heq with e1 e2
      right
      exact ⟨e1 ▸ hp.2, e2 ▸ hp.1⟩
    · rw [mem_prodList] at h
      left
      exact h
  · rintro ⟨hfit, h⟩
    simp only [potentialChildren, List.mem_map, List.mem_dedup, List.mem_append]
    cases f with
    | mk fm fc fit =>
        have hfit2 : fit = none := hfit
        subst hfit2
        rcases h with ⟨hm, hc⟩ | ⟨hm, hc⟩
        · exact ⟨(fm, fc), Or.inr ((mem_prodList _ _ _).mpr ⟨hm, hc⟩), rfl⟩
        · exact ⟨(fm, fc),
            Or.inl ⟨(fc, fm), (mem_prodList _ _ _).mpr ⟨hc, hm⟩, rfl⟩, rfl⟩

/-! ### C3: mutation magnitude with mutProb = 1, mutVal = 5 -/

/-- Evaluation of the mutator on the child `(0,0)` with draw outcome
`(0,0,0)` under `mutProb = 1`, `mutVal = 5`: the output is unchanged. -/
theorem mutate_zero_child_eval :
    mutate [⟨0, 0, none⟩] hpMutOne (fun _ => (0, 0, 0)) = [⟨0, 0, none⟩] := by
  norm_num [mutate, mutateAux, mutateChild, hpMutOne, pyRound0, List.dedup]

/-- C3 (counterexample): with `mutProb = 1.0`, `mutVal = 5`, the child
`(0,0)` and the legitimate draw outcome `(0,0,0)` (each draw in `[0,1)`),
the output child of the mutator is unchanged — it does not differ by `±5` in
either coordinate. -/
theorem mutation_magnitude_counterexample :
    unitDraw3 ((0 : ℚ), (0 : ℚ), (0 : ℚ)) ∧
      ¬ ∀ f ∈ mutate [⟨0, 0, none⟩] hpMutOne (fun _ => (0, 0, 0)),
          (f.m - 0 = 5 ∨ f.m - 0 = -5 ∨ f.c - 0 = 5 ∨ f.c - 0 = -5) := by
  constructor
  · decide
  · rw [mutate_zero_child_eval]
    norm_num

/-- C3 (amended): with `mutProb = 1.0` and `mutVal = 5`, every child output
by the mutator has its m and c numerically *unchanged* from its
pre-mutation input (the rounded direction is always 0, so the perturbation
is `5·0 = 0`), with fitness reset to unset. -/
theorem mutate_mutProb_one_unchanged (hyperParams : HyperParams)
    (children : List Formula) (draws : ℕ → ℚ × ℚ × ℚ)
    (hprob : hyperParams.mutProb = 1) (hval : hyperParams.mutVal = 5)
    (hd : ∀ n, unitDraw3 (draws n)) :
    ∀ f ∈ mutate children hyperParams draws,
      ∃ c ∈ children, f.m = c.m ∧ f.c = c.c ∧ f.fitness = none := by
  intro f hf
  unfold mutate at hf
  rw [List.mem_dedup, mutateAux_eq_map hd, List.mem_map] at hf
  obtain ⟨c, hc, rfl⟩ := hf
  exact ⟨c, hc, rfl, rfl, rfl⟩

/-- Evaluation of the mutator on the scored child `(1,2)` with draw outcome
`(0,0,0)` under `mutProb = 1`, `mutVal = 5`. -/
theorem mutate_scored_child_eval :
    mutate [⟨1, 2, some 3⟩] hpMutOne (fun _ => (0, 0, 0)) = [⟨1, 2, none⟩] := by
  norm_num [mutate, mutateAux, mutateChild, hpMutOne, pyRound0, List.dedup]

/-- Witness for the amended C3 at a concrete input. -/
theorem mutate_mutProb_one_unchanged_witness :
    ∃ c ∈ ([⟨1, 2, some 3⟩] : List Formula),
      (⟨1, 2, none⟩ : Formula).m = c.m ∧ (⟨1, 2, none⟩ : Formula).c = c.c ∧
        (⟨1, 2, none⟩ : Formula).fitness = none := by
  have hd : ∀ n : ℕ, unitDraw3 ((fun (_ : ℕ) => ((0 : ℚ), (0 : ℚ), (0 : ℚ))) n) := by
    intro n
    show unitDraw3 (0, 0, 0)
    decide
  exact mutate_mutProb_one_unchanged hpMutOne [⟨1, 2, some 3⟩] (fun _ => (0, 0, 0))
    (by decide) (by decide) hd ⟨1, 2, none⟩ (by rw [mutate_scored_child_eval]; decide)

/-! ### C4: the mutator is the identity on (m, c) -/

/-- C4: for every input child, hyper-parameter bundle and outcome of the
random draws (each in `[0,1)`), the mutator returns each child with m and c
numerically unchanged and fitness reset to unset: the direction
`round(random()-0.5, 0)` is always zero. -/
theorem mutate_values_unchanged (hyperParams : HyperParams)
    (children : List Formula) (draws : ℕ → ℚ × ℚ × ℚ)
    (hd : ∀ n, unitDraw3 (draws n)) :
    mutate children hyperParams draws =
      (children.map fun c => ⟨c.m, c.c, none⟩).dedup := by
  unfold mutate
  rw [mutateAux_eq_map hd]

/-- Witness for C4 at a concrete input: a scored child `(3,4)` passes
through with values intact and fitness cleared. -/
theorem mutate_values_unchanged_witness :
    mutate [⟨3, 4, some 7⟩] hpDefault (fun _ => (1/2, 1/2, 1/2)) =
      (([⟨3, 4, some 7⟩] : List Formula).map fun c => ⟨c.m, c.c, none⟩).dedup := by
  have hd : ∀ n : ℕ, unitDraw3 ((fun (_ : ℕ) => ((1 : ℚ)/2, (1 : ℚ)/2, (1 : ℚ)/2)) n) := by
    intro n
    show unitDraw3 (1/2, 1/2, 1/2)
    norm_num [unitDraw3, unitDraw]
  exact mutate_values_unchanged hpDefault [⟨3, 4, some 7⟩] _ hd

/-! ### Breeder lemmas and concrete breeding runs -/

theorem childTarget_le_pool (population : List Formula)
    (hyperParams : HyperParams) :
    childTarget population hyperParams ≤
      ((potentialChildren population).length : ℤ) := by
  unfold childTarget pyInt
  split
  · calc ⌊min ((potentialChildren population).length : ℚ)
          ((hyperParams.popSize : ℚ) * (1 - hyperParams.immigrationSize) -
            population.length)⌋
        ≤ ⌊((potentialChildren population).length : ℚ)⌋ :=
          Int.floor_le_floor (min_le_left _ _)
      _ = ((potentialChildren population).length : ℤ) := Int.floor_natCast _
  · next h =>
      have hle : min ((potentialChildren population).length : ℚ)
          ((hyperParams.popSize : ℚ) * (1 - hyperParams.immigrationSize) -
            population.length) ≤ ((0 : ℤ) : ℚ) := by
        push_cast
        exact le_of_lt (lt_of_not_ge h)
      calc ⌈min ((potentialChildren population).length : ℚ)
            ((hyperParams.popSize : ℚ) * (1 - hyperParams.immigrationSize) -
              population.length)⌉
          ≤ 0 := Int.ceil_le.mpr hle
        _ ≤ ((potentialChildren population).length : ℤ) := Int.natCast_nonneg _

theorem potentialChildren_eliteOne_eval :
    potentialChildren eliteOne = [⟨2, 1, none⟩, ⟨1, 2, none⟩] := by
  decide

theorem childTarget_eliteOne_eval : childTarget eliteOne hpBreed = 1 := by
  rw [childTarget, potentialChildren_eliteOne_eval]
  norm_num [pyInt, hpBreed, eliteOne, min_def]

theorem sample_eliteOne_eval :
    pythonSample (potentialChildren eliteOne) (childTarget eliteOne hpBreed)
      (fun _ => 0) = Except.ok [⟨2, 1, none⟩] := by
  rw [potentialChildren_eliteOne_eval, childTarget_eliteOne_eval]
  rfl

/-- The fresh immigrant generated in the concrete breeding run. -/
theorem immigrant_eliteOne_eval :
    createPopulation hpBreed.mcrange hpBreed.dps
      ((hpBreed.popSize : ℤ) -
        (([⟨2, 1, none⟩] : List Formula).length + eliteOne.length)).toNat
      (fun _ => (0, 0)) = [⟨0, 0, none⟩] := by
  norm_num [createPopulation, hpBreed, eliteOne, pyRoundD, pyRound0,
    List.range_succ]

theorem breed_eliteOne_eval :
    breedPopulation eliteOne hpBreed (fun _ => 0) (fun _ => (0, 0, 0))
      (fun _ => (0, 0)) = Except.ok [⟨1, 2, none⟩, ⟨2, 1, none⟩, ⟨0, 0, none⟩] := by
  rw [breedPopulation_eq]
  rw [sample_eliteOne_eval]
  simp only [immigrant_eliteOne_eval]
  norm_num [eliteOne, hpBreed]

theorem childTarget_eliteTwo_eval : childTarget eliteTwo hpImmHalf = -1 := by
  have hpool : potentialChildren eliteTwo =
      [⟨2, 1, none⟩, ⟨4, 1, none⟩, ⟨2, 3, none⟩, ⟨4, 3, none⟩,
       ⟨1, 2, none⟩, ⟨1, 4, none⟩, ⟨3, 2, none⟩, ⟨3, 4, none⟩] := by decide
  rw [childTarget, hpool]
  norm_num [pyInt, hpImmHalf, eliteTwo, min_def]
  exact_mod_cast Int.ceil_intCast (-1 : ℤ)

/-! ### C1: the new generation is elite ∪ mutated children ∪ immigrants -/

/-- C1: whenever the breeder succeeds, a candidate is in the returned
generation iff it is an elite member, a member of the mutator output on
the sampled children, or one of the fresh immigrants.  (The source appends
the pre-mutation `children` list, but the mutator is the identity on
values, so the members of the returned generation are exactly the mutator
outputs together with elite and immigrants.) -/
theorem breed_is_elite_mutated_immigrants
    (population : List Formula) (hyperParams : HyperParams)
    (sampleIdx : ℕ → ℕ) (mutDraws : ℕ → ℚ × ℚ × ℚ) (immDraws : ℕ → ℚ × ℚ)
    (children newPopulation : List Formula)
    (hd : ∀ n, unitDraw3 (mutDraws n))
    (hs : pythonSample (potentialChildren population)
        (childTarget population hyperParams) sampleIdx = Except.ok children)
    (hb : breedPopulation population hyperParams sampleIdx mutDraws immDraws =
        Except.ok newPopulation) :
    ∀ f, f ∈ newPopulation ↔
      f ∈ population ∨ f ∈ mutate children hyperParams mutDraws ∨
        f ∈ createPopulation hyperParams.mcrange hyperParams.dps
          ((hyperParams.popSize : ℤ) - (children.length + population.length)).toNat
          immDraws := by
  intro f
  rw [breedPopulation_eq, hs] at hb
  simp only at hb
  split at hb
  · exact absurd hb (by simp)
  · injection hb with hb
    subst hb
    have hsub : ∀ c ∈ children, c.fitness = none := fun c hc =>
      potentialChildren_fitness (pythonSample_ok_subset hs c hc)
    rw [mem_mutate_of_unscored hd hyperParams hsub]
    simp [List.mem_append, or_assoc]

/-- Witness for C1: the concrete breeding run on `eliteOne` under
`hpBreed`, checked at the sampled child `(2,1)`. -/
theorem breed_is_elite_mutated_immigrants_witness :
    (⟨2, 1, none⟩ : Formula) ∈
        ([⟨1, 2, none⟩, ⟨2, 1, none⟩, ⟨0, 0, none⟩] : List Formula) ↔
      (⟨2, 1, none⟩ : Formula) ∈ eliteOne ∨
        (⟨2, 1, none⟩ : Formula) ∈
          mutate [⟨2, 1, none⟩] hpBreed (fun _ => (0, 0, 0)) ∨
        (⟨2, 1, none⟩ : Formula) ∈
          createPopulation hpBreed.mcrange hpBreed.dps
            ((hpBreed.popSize : ℤ) -
              (([⟨2, 1, none⟩] : List Formula).length + eliteOne.length)).toNat
            (fun _ => (0, 0)) := by
  have hd : ∀ n : ℕ, unitDraw3 ((fun (_ : ℕ) => ((0 : ℚ), (0 : ℚ), (0 : ℚ))) n) := by
    intro n
    show unitDraw3 (0, 0, 0)
    decide
  exact breed_is_elite_mutated_immigrants eliteOne hpBreed (fun _ => 0)
    (fun _ => (0, 0, 0)) (fun _ => (0, 0)) [⟨2, 1, none⟩]
    [⟨1, 2, none⟩, ⟨2, 1, none⟩, ⟨0, 0, none⟩] hd sample_eliteOne_eval
    breed_eliteOne_eval ⟨2, 1, none⟩

/-! ### C8: population size invariant -/

/-- C8: every generation the breeder returns has length exactly `popSize`,
and if the size of the assembled generation differs from `popSize` the breeder
raises instead of truncating or padding. -/
theorem breed_population_size (population : List Formula)
    (hyperParams : HyperParams) (sampleIdx : ℕ → ℕ)
    (mutDraws : ℕ → ℚ × ℚ × ℚ) (immDraws : ℕ → ℚ × ℚ) :
    (∀ newPopulation,
      breedPopulation population hyperParams sampleIdx mutDraws immDraws =
          Except.ok newPopulation →
        newPopulation.length = hyperParams.popSize) ∧
    (∀ children,
      pythonSample (potentialChildren population)
          (childTarget population hyperParams) sampleIdx = Except.ok children →
        (population ++ children ++
            createPopulation hyperParams.mcrange hyperParams.dps
              ((hyperParams.popSize : ℤ) -
                (children.length + population.length)).toNat immDraws).length ≠
          hyperParams.popSize →
        breedPopulation population hyperParams sampleIdx mutDraws immDraws =
          Except.error "ValueError: Population size mismatch") := by
  constructor
  · intro newPopulation h
    rw [breedPopulation_eq] at h
    cases hps : pythonSample (potentialChildren population)
        (childTarget population hyperParams) sampleIdx with
    | error e => rw [hps] at h; exact absurd h (by simp)
    | ok children =>
        rw [hps] at h
        simp only at h
        split at h
        · exact absurd h (by simp)
        · next hlen =>
            injection h with h
            rw [← h]
            exact not_ne_iff.mp hlen
  · intro children hs hne
    rw [breedPopulation_eq, hs]
    simp only
    rw [if_pos hne]

/-- Witness for C8: the concrete breeding run on `eliteOne` under `hpBreed`
returns a generation of length `popSize = 3`. -/
theorem breed_population_size_witness :
    ([⟨1, 2, none⟩, ⟨2, 1, none⟩, ⟨0, 0, none⟩] : List Formula).length =
      hpBreed.popSize :=
  (breed_population_size eliteOne hpBreed (fun _ => 0) (fun _ => (0, 0, 0))
    (fun _ => (0, 0))).1 [⟨1, 2, none⟩, ⟨2, 1, none⟩, ⟨0, 0, none⟩]
    breed_eliteOne_eval

/-! ### C9: the sample-size arithmetic of the breeder -/

/-- C9 (counterexample): with `popSize = 2`, `immigrationSize = 0.5` and the
elite `{(1,2),(3,4)}` the subtraction `popSize·(1−immigrationSize) −
eliteSize = −1` is negative, and the breeder raises the `ValueError` of
`random.sample` instead of treating the target as 0 and producing zero
children. -/
theorem breed_negative_target_error :
    childTarget eliteTwo hpImmHalf < 0 ∧
      breedPopulation eliteTwo hpImmHalf (fun _ => 0) (fun _ => (0, 0, 0))
          (fun _ => (0, 0)) =
        Except.error "ValueError: Sample larger than population or is negative" := by
  constructor
  · rw [childTarget_eliteTwo_eval]
    decide
  · have hs : pythonSample (potentialChildren eliteTwo)
        (childTarget eliteTwo hpImmHalf) (fun _ => 0) =
        Except.error "ValueError: Sample larger than population or is negative" := by
      rw [pythonSample, childTarget_eliteTwo_eval]
      norm_num
    rw [breedPopulation_eq, hs]

/-- C9 (amended): the breeder samples exactly
`int(min(poolSize, popSize·(1−immigrationSize) − eliteSize))` children —
truncation of the min, not `round(popSize·(1−immigrationSize)) − eliteSize`
— when that target is nonnegative; when the target is negative, the
`random.sample` call raises an error rather than being clamped to 0. -/
theorem breed_sample_target (population : List Formula)
    (hyperParams : HyperParams) (sampleIdx : ℕ → ℕ) :
    (0 ≤ childTarget population hyperParams →
      ∃ children,
        pythonSample (potentialChildren population)
            (childTarget population hyperParams) sampleIdx =
          Except.ok children ∧
        children.length = (childTarget population hyperParams).toNat) ∧
    (childTarget population hyperParams < 0 →
      ∀ (mutDraws : ℕ → ℚ × ℚ × ℚ) (immDraws : ℕ → ℚ × ℚ),
        breedPopulation population hyperParams sampleIdx mutDraws immDraws =
          Except.error "ValueError: Sample larger than population or is negative") := by
  constructor
  · intro h0
    have hguard : ¬ (childTarget population hyperParams < 0 ∨
        ((potentialChildren population).length : ℤ) <
          childTarget population hyperParams) := by
      push_neg
      exact ⟨h0, childTarget_le_pool population hyperParams⟩
    refine ⟨sampleAux sampleIdx (childTarget population hyperParams).toNat
      (potentialChildren population) 0, ?_, sampleAux_length _ _ _ _⟩
    rw [pythonSample, if_neg hguard]
  · intro hneg mutDraws immDraws
    have hs : pythonSample (potentialChildren population)
        (childTarget population hyperParams) sampleIdx =
        Except.error "ValueError: Sample larger than population or is negative" := by
      rw [pythonSample, if_pos (Or.inl hneg)]
    rw [breedPopulation_eq, hs]

/-- Witness for the amended C9: on the concrete run over `eliteOne` under
`hpBreed` the nonnegative target `1` yields exactly one sampled child. -/
theorem breed_sample_target_witness :
    ∃ children,
      pythonSample (potentialChildren eliteOne) (childTarget eliteOne hpBreed)
          (fun _ => 0) =
        Except.ok children ∧
      children.length = (childTarget eliteOne hpBreed).toNat :=
  (breed_sample_target eliteOne hpBreed (fun _ => 0)).1
    (by rw [childTarget_eliteOne_eval]; decide)

/-! ### The generational loop: unfolding lemmas and invariant -/

theorem evolveLoop_zero (data : List DataPoint) (hyperParams : HyperParams)
    (R : Rand) (globalDps : ℕ) (i : ℕ) (basePopulation : List Formula) :
    evolveLoop data hyperParams R globalDps 0 i basePopulation =
      match best basePopulation with
      | Except.error e => Except.error e
      | Except.ok b => Except.ok (b, hyperParams.cycles) := rfl

theorem evolveLoop_succ (data : List DataPoint) (hyperParams : HyperParams)
    (R : Rand) (globalDps : ℕ) (fuel i : ℕ) (basePopulation : List Formula) :
    evolveLoop data hyperParams R globalDps (fuel + 1) i basePopulation =
      match best (scorePopulation basePopulation data hyperParams globalDps) with
      | Except.error e => Except.error e
      | Except.ok b =>
          if b.fitness = some 0 then
            Except.ok (b, i + 1)
          else
            match selectPopulation
                (scorePopulation basePopulation data hyperParams globalDps)
                hyperParams (R.tournIdx i) with
            | Except.error e => Except.error e
            | Except.ok bestPopulation =>
                if i + 1 < hyperParams.cycles then
                  match breedPopulation bestPopulation hyperParams
                      (R.sampleIdx i) (R.mutDraws i) (R.immDraws i) with
                  | Except.error e => Except.error e
                  | Except.ok newPopulation =>
                      evolveLoop data hyperParams R globalDps fuel (i + 1)
                        newPopulation
                else
                  evolveLoop data hyperParams R globalDps fuel (i + 1)
                    bestPopulation := rfl

theorem basePopAt_zero (data : List DataPoint) (hyperParams : HyperParams)
    (R : Rand) (globalDps : ℕ) :
    basePopAt data hyperParams R globalDps 0 =
      Except.ok (createPopulation hyperParams.mcrange hyperParams.dps
        hyperParams.popSize R.initDraws) := rfl

theorem basePopAt_succ (data : List DataPoint) (hyperParams : HyperParams)
    (R : Rand) (globalDps : ℕ) (i : ℕ) :
    basePopAt data hyperParams R globalDps (i + 1) =
      match basePopAt data hyperParams R globalDps i with
      | Except.error e => Except.error e
      | Except.ok gen =>
          match selectPopulation (scorePopulation gen data hyperParams globalDps)
              hyperParams (R.tournIdx i) with
          | Except.error e => Except.error e
          | Except.ok elite =>
              if i + 1 < hyperParams.cycles then
                breedPopulation elite hyperParams (R.sampleIdx i) (R.mutDraws i)
                  (R.immDraws i)
              else
                Except.ok elite := rfl

/-- The loop characterization of `evolve`: a successful result `(b, n)` of
the loop entered at generation `i` (with `basePopAt i` the current
population and `fuel` the remaining iterations) either is the base return
after the last generation, or descends from a genuine iteration: no
generation from `i` up to `n - 2` had a minimum fitness of 0, and the
result is the converging best of generation `n - 1` with fitness 0, or the
best of the elite selected from the final generation `cycles - 1` whose
own best fitness is nonzero. -/
theorem evolveLoop_characterize (data : List DataPoint)
    (hyperParams : HyperParams) (R : Rand) (globalDps : ℕ) :
    ∀ (fuel i : ℕ) (basePopulation : List Formula) (b : Formula) (n : ℕ),
      fuel + i = hyperParams.cycles →
      basePopAt data hyperParams R globalDps i = Except.ok basePopulation →
      evolveLoop data hyperParams R globalDps fuel i basePopulation =
        Except.ok (b, n) →
      n ≤ hyperParams.cycles ∧
        ((i = hyperParams.cycles ∧ n = hyperParams.cycles ∧
            best basePopulation = Except.ok b) ∨
         (i < n ∧
           (∀ j, i ≤ j → j + 1 < n →
             ∃ gen bj, basePopAt data hyperParams R globalDps j =
                 Except.ok gen ∧
               best (scorePopulation gen data hyperParams globalDps) =
                 Except.ok bj ∧ bj.fitness ≠ some 0) ∧
           ((b.fitness = some 0 ∧
               ∃ gen, basePopAt data hyperParams R globalDps (n - 1) =
                   Except.ok gen ∧
                 best (scorePopulation gen data hyperParams globalDps) =
                   Except.ok b) ∨
            (n = hyperParams.cycles ∧
              ∃ gen elite,
                basePopAt data hyperParams R globalDps
                    (hyperParams.cycles - 1) = Except.ok gen ∧
                selectPopulation
                    (scorePopulation gen data hyperParams globalDps) hyperParams
                    (R.tournIdx (hyperParams.cycles - 1)) = Except.ok elite ∧
                best elite = Except.ok b ∧
                ∃ bfin,
                  best (scorePopulation gen data hyperParams globalDps) =
                    Except.ok bfin ∧ bfin.fitness ≠ some 0)))) := by
  intro fuel
  induction fuel with
  | zero =>
      intro i basePopulation b n hsum hbase h
      rw [evolveLoop_zero] at h
      split at h
      · exact absurd h (by simp)
      · next b2 hb2 =>
          injection h with h
          injection h with h1 h2
          subst h1
          subst h2
          exact ⟨le_refl _, Or.inl ⟨by omega, rfl, hb2⟩⟩
  | succ fuel ih =>
      intro i basePopulation b n hsum hbase h
      rw [evolveLoop_succ] at h
      split at h
      · exact absurd h (by simp)
      · next b0 hb0 =>
          split at h
          · next hfit =>
              injection h with h
              injection h with h1 h2
              subst h1
              subst h2
              refine ⟨by omega, Or.inr ⟨Nat.lt_succ_self i, ?_,
                Or.inl ⟨hfit, basePopulation, ?_, hb0⟩⟩⟩
              · intro j hij hjn
                exact absurd hjn (by omega)
              · rw [Nat.add_sub_cancel]
                exact hbase
          · next hfit =>
              split at h
              · exact absurd h (by simp)
              · next elite hsel =>
                  split at h
                  · next hlt =>
                      split at h
                      · exact absurd h (by simp)
                      · next newPop hbreed =>
                          have hbase2 : basePopAt data hyperParams R globalDps
                              (i + 1) = Except.ok newPop := by
                            simp only [basePopAt_succ, hbase, hsel]
                            rw [if_pos hlt]
                            exact hbreed
                          obtain ⟨hn, hAB⟩ :=
                            ih (i + 1) newPop b n (by omega) hbase2 h
                          rcases hAB with ⟨hic, _, _⟩ | ⟨hin, hnoe, hdisj⟩
                          · exact absurd hic (by omega)
                          · refine ⟨hn, Or.inr ⟨by omega, ?_, hdisj⟩⟩
                            intro j hij hjn
                            rcases Nat.eq_or_lt_of_le hij with rfl | hij2
                            · exact ⟨basePopulation, b0, hbase, hb0, hfit⟩
                            · exact hnoe j (by omega) hjn
                  · next hnlt =>
                      have hic : i + 1 = hyperParams.cycles := by omega
                      have hbase2 : basePopAt data hyperParams R globalDps
                          (i + 1) = Except.ok elite := by
                        simp only [basePopAt_succ, hbase, hsel]
                        rw [if_neg hnlt]
                      obtain ⟨hn, hAB⟩ :=
                        ih (i + 1) elite b n (by omega) hbase2 h
                      rcases hAB with ⟨_, hncyc, hbelite⟩ | ⟨hin, _, _⟩
                      · refine ⟨hn, Or.inr ⟨by omega, ?_,
                          Or.inr ⟨hncyc, basePopulation, elite, ?_, ?_,
                            hbelite, b0, hb0, hfit⟩⟩⟩
                        · intro j hij hjn
                          exact absurd hjn (by omega)
                        · rw [show hyperParams.cycles - 1 = i by omega]
                          exact hbase
                        · rw [show hyperParams.cycles - 1 = i by omega]
                          exact hsel
                      · exact absurd hin (by omega)

/-! ### C5: evolve on the empty dataset -/

/-- C5: with an empty dataset, `evolve` does not raise any input error —
every candidate scores `0`, so it returns a "fitness 0" candidate as a
false convergence on generation 1. -/
theorem evolve_empty_data_returns_zero (hyperParams : HyperParams) (R : Rand)
    (globalDps : ℕ) (hpop : 1 ≤ hyperParams.popSize)
    (hcyc : 1 ≤ hyperParams.cycles) :
    ∃ b, evolve [] hyperParams R globalDps = Except.ok (b, 1) ∧
      b.fitness = some 0 := by
  obtain ⟨k, hk⟩ : ∃ k, hyperParams.cycles = k + 1 :=
    ⟨hyperParams.cycles - 1, by omega⟩
  rw [evolve, hk, evolveLoop_succ]
  have hfitnone : ∀ c ∈ createPopulation hyperParams.mcrange hyperParams.dps
      hyperParams.popSize R.initDraws, c.fitness = none :=
    fun c hc => createPopulation_fitness hc
  have hall := scorePopulation_empty_data hfitnone hyperParams globalDps
  have hlen : (scorePopulation
      (createPopulation hyperParams.mcrange hyperParams.dps
        hyperParams.popSize R.initDraws) [] hyperParams globalDps).length =
      hyperParams.popSize := by
    rw [scorePopulation_length, createPopulation_length]
  cases hsc : scorePopulation
      (createPopulation hyperParams.mcrange hyperParams.dps
        hyperParams.popSize R.initDraws) [] hyperParams globalDps with
  | nil => rw [hsc] at hlen; simp at hlen; omega
  | cons x xs =>
      rw [hsc] at hall
      have hb : best (x :: xs) = Except.ok (xs.foldl (fun acc y =>
          if y.fitness.getD 0 < acc.fitness.getD 0 then y else acc) x) := rfl
      have hmem := best_mem hb
      have hbfit := hall _ hmem
      rw [hb]
      simp only
      rw [if_pos hbfit]
      exact ⟨_, rfl, hbfit⟩

/-- Witness for C5: the concrete empty-dataset run with `popSize = 1`,
`cycles = 1`. -/
theorem evolve_empty_data_returns_zero_witness :
    ∃ b, evolve [] hpEmpty REx 0 = Except.ok (b, 1) ∧ b.fitness = some 0 :=
  evolve_empty_data_returns_zero hpEmpty REx 0 (by decide) (by decide)

/-! ### C6: termination and the returned candidate -/

theorem createPopulation_run_eval :
    createPopulation hpEx.mcrange hpEx.dps hpEx.popSize REx.initDraws =
      [⟨1, 0, none⟩, ⟨0, 0, none⟩] := by
  norm_num [createPopulation, hpEx, REx, pyRoundD, pyRound0,
    List.range_succ]

theorem scorePopulation_run_eval :
    scorePopulation [⟨1, 0, none⟩, ⟨0, 0, none⟩] dataEx hpEx 0 =
      [⟨1, 0, some 2⟩, ⟨0, 0, some 3⟩] := by
  norm_num [scorePopulation, score, fitnessOr, dataEx, pyRoundD, pyRound0]

theorem best_run_eval :
    best [⟨1, 0, some 2⟩, ⟨0, 0, some 3⟩] = Except.ok ⟨1, 0, some 2⟩ := by
  rfl

theorem selectPopulation_run_eval :
    selectPopulation [⟨1, 0, some 2⟩, ⟨0, 0, some 3⟩] hpEx (REx.tournIdx 0) =
      Except.ok [⟨0, 0, some 3⟩] := by
  have hk : pyRound0 ((hpEx.popSize : ℚ) * hpEx.tournamentSize) = 1 := by
    norm_num [pyRound0, hpEx]
  have hg : pyRound0 ((hpEx.popSize : ℚ) * hpEx.goldenSize) = 1 := by
    norm_num [pyRound0, hpEx]
  rw [selectPopulation, hk, hg]
  rfl

theorem evolve_run_eval :
    evolve dataEx hpEx REx 0 = Except.ok (⟨0, 0, some 3⟩, 1) := by
  show evolveLoop dataEx hpEx REx 0 1 0
      (createPopulation hpEx.mcrange hpEx.dps hpEx.popSize REx.initDraws) =
    Except.ok (⟨0, 0, some 3⟩, 1)
  rw [evolveLoop_succ, createPopulation_run_eval, scorePopulation_run_eval,
    best_run_eval]
  simp only
  rw [if_neg (by simp), selectPopulation_run_eval]
  simp only
  rw [if_neg (by decide)]
  rw [evolveLoop_zero]
  rfl

/-- C6 (counterexample): a one-cycle run that exhausts its budget returns
the best of the selected elite — here the candidate `(0,0)` with fitness 3
— even though the minimum-fitness candidate of the final evaluated
generation is `(1,0)` with fitness 2.  The claimed "returns the best
candidate observed in the final evaluated generation" is false. -/
theorem evolve_exhaustion_counterexample :
    evolve dataEx hpEx REx 0 = Except.ok (⟨0, 0, some 3⟩, 1) ∧
      best (scorePopulation
          (createPopulation hpEx.mcrange hpEx.dps hpEx.popSize REx.initDraws)
          dataEx hpEx 0) = Except.ok ⟨1, 0, some 2⟩ ∧
      (⟨0, 0, some 3⟩ : Formula) ≠ ⟨1, 0, some 2⟩ := by
  refine ⟨evolve_run_eval, ?_, by decide⟩
  rw [createPopulation_run_eval, scorePopulation_run_eval, best_run_eval]

/-- C6 (amended): every successful `evolve` run terminates within `cycles`
generations, using `n` cycles with `1 ≤ n ≤ cycles`, and its result is
fully characterized: no generation before generation `n-1` had a
minimum-fitness candidate with fitness 0 (the convergence exit fires as
soon as one appears), and the returned candidate is either the
minimum-fitness candidate of generation `n-1` with fitness 0 (convergence,
returned with `(n-1)+1 = n` cycles used), or — with the budget exhausted,
`n = cycles`, and the final evaluated generation's minimum fitness nonzero
— the best candidate of the elite selected from that final generation.
The last conjunct ties `best` to the claim: it always returns a member of
minimal fitness. -/
theorem evolve_characterization (data : List DataPoint)
    (hyperParams : HyperParams) (R : Rand) (globalDps : ℕ) (b : Formula)
    (n : ℕ) (hcyc : 1 ≤ hyperParams.cycles)
    (h : evolve data hyperParams R globalDps = Except.ok (b, n)) :
    1 ≤ n ∧ n ≤ hyperParams.cycles ∧
      (∀ j, j + 1 < n →
        ∃ gen bj, basePopAt data hyperParams R globalDps j = Except.ok gen ∧
          best (scorePopulation gen data hyperParams globalDps) =
            Except.ok bj ∧ bj.fitness ≠ some 0) ∧
      ((b.fitness = some 0 ∧
          ∃ gen, basePopAt data hyperParams R globalDps (n - 1) =
              Except.ok gen ∧
            best (scorePopulation gen data hyperParams globalDps) =
              Except.ok b) ∨
        (n = hyperParams.cycles ∧
          ∃ gen elite,
            basePopAt data hyperParams R globalDps (hyperParams.cycles - 1) =
              Except.ok gen ∧
            selectPopulation (scorePopulation gen data hyperParams globalDps)
              hyperParams (R.tournIdx (hyperParams.cycles - 1)) =
              Except.ok elite ∧
            best elite = Except.ok b ∧
            ∃ bfin,
              best (scorePopulation gen data hyperParams globalDps) =
                Except.ok bfin ∧ bfin.fitness ≠ some 0)) ∧
      (∀ (l : List Formula) (x : Formula), best l = Except.ok x →
        x ∈ l ∧ ∀ y ∈ l, x.fitness.getD 0 ≤ y.fitness.getD 0) := by
  rw [evolve] at h
  have hbase0 : basePopAt data hyperParams R globalDps 0 =
      Except.ok (createPopulation hyperParams.mcrange hyperParams.dps
        hyperParams.popSize R.initDraws) := rfl
  obtain ⟨hn, hAB⟩ := evolveLoop_characterize data hyperParams R globalDps
    hyperParams.cycles 0 _ b n (by omega) hbase0 h
  rcases hAB with ⟨h0, _, _⟩ | ⟨hpos, hnoe, hdisj⟩
  · exact absurd h0 (by omega)
  · refine ⟨by omega, hn, ?_, hdisj, ?_⟩
    · intro j hjn
      exact hnoe j (Nat.zero_le j) hjn
    · intro l x hx
      exact best_min hx

/-- Witness for the amended C6: the concrete exhausted run, which used its
whole one-cycle budget and returned the best of the selected elite. -/
theorem evolve_characterization_witness :
    1 ≤ 1 ∧ 1 ≤ hpEx.cycles ∧
      (∀ j, j + 1 < 1 →
        ∃ gen bj, basePopAt dataEx hpEx REx 0 j = Except.ok gen ∧
          best (scorePopulation gen dataEx hpEx 0) = Except.ok bj ∧
          bj.fitness ≠ some 0) ∧
      (((⟨0, 0, some 3⟩ : Formula).fitness = some 0 ∧
          ∃ gen, basePopAt dataEx hpEx REx 0 (1 - 1) = Except.ok gen ∧
            best (scorePopulation gen dataEx hpEx 0) =
              Except.ok ⟨0, 0, some 3⟩) ∨
        (1 = hpEx.cycles ∧
          ∃ gen elite,
            basePopAt dataEx hpEx REx 0 (hpEx.cycles - 1) = Except.ok gen ∧
            selectPopulation (scorePopulation gen dataEx hpEx 0) hpEx
              (REx.tournIdx (hpEx.cycles - 1)) = Except.ok elite ∧
            best elite = Except.ok ⟨0, 0, some 3⟩ ∧
            ∃ bfin, best (scorePopulation gen dataEx hpEx 0) =
              Except.ok bfin ∧ bfin.fitness ≠ some 0)) ∧
      (∀ (l : List Formula) (x : Formula), best l = Except.ok x →
        x ∈ l ∧ ∀ y ∈ l, x.fitness.getD 0 ≤ y.fitness.getD 0) :=
  evolve_characterization dataEx hpEx REx 0 ⟨0, 0, some 3⟩ 1
    (by decide) evolve_run_eval

/-! ### C7: score reads the module-global precision -/

/-- C7: `__score` has no precision parameter and reads the module-global
`hyperParams.dps`.  Scoring the candidate `(0,0)` on the data point
`(1, 0.4)` with a bundle carrying `dps = 1` but a module-global precision
`0` yields fitness `0` (the residual `0.4` rounds away at integer
precision), not the `0.4` demanded by the spec contract
`score(candidate, data, precision)`; the same call under a
different module-global returns a different result, so `score` is *not* a
function of the supplied bundle alone. -/
theorem score_ignores_passed_precision :
    hpPrec.dps = 1 ∧
      scorePopulation [⟨0, 0, none⟩] [⟨1, 2/5⟩] hpPrec 0 = [⟨0, 0, some 0⟩] ∧
      scoreSpec ⟨0, 0, none⟩ [⟨1, 2/5⟩] hpPrec.dps = 2/5 ∧
      scorePopulation [⟨0, 0, none⟩] [⟨1, 2/5⟩] hpPrec 0 ≠
        scorePopulation [⟨0, 0, none⟩] [⟨1, 2/5⟩] hpPrec 1 := by
  have e0 : pyRoundD ((2 : ℚ)/5) 0 = 0 := by
    rw [pyRoundD]
    norm_num
    exact pyRound0_two_fifths
  have e1 : pyRoundD ((2 : ℚ)/5) 1 = 2/5 := by
    rw [pyRoundD]
    norm_num
    rw [show ((4 : ℚ)) = ((4 : ℤ) : ℚ) by norm_num, pyRound0_cast]
    norm_num
  have h0 : scorePopulation [⟨0, 0, none⟩] [⟨1, 2/5⟩] hpPrec 0 =
      [⟨0, 0, some 0⟩] := by
    simp only [scorePopulation, score, fitnessOr, List.map_cons, List.map_nil]
    rw [List.sum_cons, List.sum_nil]
    norm_num [e0]
  have h1 : scorePopulation [⟨0, 0, none⟩] [⟨1, 2/5⟩] hpPrec 1 =
      [⟨0, 0, some (2/5)⟩] := by
    simp only [scorePopulation, score, fitnessOr, List.map_cons, List.map_nil]
    rw [List.sum_cons, List.sum_nil]
    norm_num [e1]
  refine ⟨rfl, h0, ?_, ?_⟩
  · show scoreSpec ⟨0, 0, none⟩ [⟨1, 2/5⟩] 1 = 2/5
    simp only [scoreSpec, List.map_cons, List.map_nil]
    rw [List.sum_cons, List.sum_nil]
    norm_num [e1]
  · rw [h0, h1]
    simp only [ne_eq, List.cons.injEq, Formula.mk.injEq]
    norm_num

/-! ### C10: tournament sample size is not clamped -/

/-- C10: with valid hyper-parameters (`tournamentSize = 1/5 ∈ (0,1]`,
`popSize = 2 ≥ 1`) the tournament sample size `round(2·(1/5)) = 0` is *not*
clamped to 1: the selector draws an empty sample and `__best` fails with an
`IndexError`. -/
theorem selection_zero_sample_error :
    0 < hpTournZero.tournamentSize ∧ hpTournZero.tournamentSize ≤ 1 ∧
      1 ≤ hpTournZero.popSize ∧
      pyRound0 ((hpTournZero.popSize : ℚ) * hpTournZero.tournamentSize) = 0 ∧
      selectPopulation popScored hpTournZero (fun _ _ => 0) =
        Except.error "IndexError: list index out of range" := by
  have hk : pyRound0 ((hpTournZero.popSize : ℚ) * hpTournZero.tournamentSize)
      = 0 := by
    norm_num [pyRound0, hpTournZero]
  have hg : pyRound0 ((hpTournZero.popSize : ℚ) * hpTournZero.goldenSize)
      = 1 := by
    norm_num [pyRound0, hpTournZero]
  refine ⟨by norm_num [hpTournZero], by norm_num [hpTournZero], by decide,
    hk, ?_⟩
  rw [selectPopulation, hk, hg]
  rfl

end Evolium
